import Mathlib

/-!
Verification development for the metalyard GPU pooling coordinator.

The registry layer (src/server/db.go, src/server/handlers.go) is embedded
as pure functions over an explicit store; the liveness sweeper
(Scheduler.Run / cleanupStaleAgents) reduces to MarkStaleAgentsOffline.
The GPU capability checks (src/agent/gpu.go and the shared package's
GPUInfo.CanServe) are embedded directly.  Operations the specification
describes but the repository does not implement in Go (AdjustLoad, the
Scheduler's ranking, the streaming Relay) are modelled from the
specification text and marked as such in their doc comments.
-/

namespace Metalyard

/-- One row of the agents table (db.go, Agent struct / migrate schema).
Timestamps are unix seconds as stored in the INTEGER columns. -/
structure Agent where
  id : String
  apiKeyHash : String
  name : String
  status : String
  lastHeartbeat : Int
  capabilities : String
  currentLoad : Int
  createdAt : Int
  updatedAt : Int
deriving DecidableEq

/-- One row of the agent_models table (db.go, AgentModel struct). -/
structure AgentModel where
  agentID : String
  modelName : String
  quantization : String
  maxContext : Int
deriving DecidableEq

/-- The database state: the agents table and the agent_models table. -/
structure Store where
  agents : List Agent
  models : List AgentModel
deriving DecidableEq

/-- db.go RegisterAgent: upsert of the agent row (INSERT .. ON CONFLICT(agent_id)
DO UPDATE SET name, status = 'online', last_heartbeat, capabilities, updated_at),
then DELETE of the agent's old agent_models rows and INSERT of the new ones.
The single transaction becomes one pure state transformation. -/
def registerAgent (s : Store) (a : Agent) (ms : List AgentModel) (now : Int) : Store :=
  let agents' :=
    if s.agents.any (fun r => r.id == a.id) then
      s.agents.map (fun r =>
        if r.id = a.id then
          { r with name := a.name, status := "online", lastHeartbeat := now,
                   capabilities := a.capabilities, updatedAt := now }
        else r)
    else
      let fresh := { a with status := "online", lastHeartbeat := now,
                            currentLoad := 0, createdAt := now, updatedAt := now }
      s.agents ++ [fresh]
  { agents := agents',
    models := s.models.filter (fun m => !(m.agentID == a.id)) ++ ms }

/-- db.go UpdateHeartbeat: UPDATE agents SET last_heartbeat, capabilities,
status = 'online', updated_at WHERE agent_id = ?; zero affected rows is the
"agent not found" error. -/
def updateHeartbeat (s : Store) (agentID : String) (caps : String) (now : Int) :
    Except String Store :=
  if s.agents.any (fun r => r.id == agentID) then
    .ok { s with agents := s.agents.map (fun r =>
      if r.id = agentID then
        { r with lastHeartbeat := now, capabilities := caps,
                 status := "online", updatedAt := now }
      else r) }
  else
    .error ("agent not found: " ++ agentID)

/-- db.go MarkStaleAgentsOffline: UPDATE agents SET status = 'offline',
updated_at WHERE status = 'online' AND last_heartbeat < now - timeout;
returns the number of affected rows. -/
def markStaleAgentsOffline (s : Store) (timeout : Int) (now : Int) : Store × Nat :=
  let cutoff := now - timeout
  let stale := fun (r : Agent) => r.status == "online" && decide (r.lastHeartbeat < cutoff)
  ({ s with agents := s.agents.map (fun r =>
      if stale r then { r with status := "offline", updatedAt := now } else r) },
   (s.agents.filter stale).length)

/-- db.go AgentExists: SELECT COUNT(*) FROM agents WHERE agent_id = ? compared
against zero. -/
def agentExists (s : Store) (agentID : String) : Bool :=
  s.agents.any (fun r => r.id == agentID)

/-- handlers.go Capabilities: the agent hardware description carried in
register and heartbeat bodies. -/
structure Capabilities where
  gpuVendor : String
  gpuModel : String
  vramMB : Int
  platform : String
deriving DecidableEq

/-- handlers.go ModelInfo: one model offered by an agent. -/
structure ModelInfo where
  name : String
  quantization : String
  maxContext : Int
deriving DecidableEq

/-- handlers.go RegisterRequest: body of POST /v1/agents/register. -/
structure RegisterRequest where
  name : String
  apiKey : String
  capabilities : Capabilities
  models : List ModelInfo
deriving DecidableEq

/-- handlers.go HeartbeatRequest: body of POST /v1/agents/:id/heartbeat. -/
structure HeartbeatRequest where
  status : String
  currentLoad : Int
  capabilities : Capabilities
deriving DecidableEq

/-- Outcome of an HTTP handler: HTTP status plus, on failure, the stable
machine-readable error code written by writeError. -/
inductive HandlerResult where
  | ok (statusCode : Nat)
  | err (statusCode : Nat) (code : String)
deriving DecidableEq

/-- handlers.go HandleRegister.  A request body that failed to decode is
None (the invalid_json path).  JSON serialization of the capabilities and
bcrypt hashing of the API key are external collaborators, passed in as the
functions enc and hash; the generated uuid is the parameter newID. -/
def handleRegister (enc : Capabilities → String) (hash : String → String)
    (req : Option RegisterRequest) (newID : String) (s : Store) (now : Int) :
    Store × HandlerResult :=
  match req with
  | none => (s, .err 400 "invalid_json")
  | some r =>
    if r.apiKey = "" then (s, .err 400 "missing_api_key")
    else if r.models.isEmpty then (s, .err 400 "missing_models")
    else
      let agent : Agent :=
        { id := newID, apiKeyHash := hash r.apiKey, name := r.name,
          status := "online", lastHeartbeat := 0,
          capabilities := enc r.capabilities, currentLoad := 0,
          createdAt := 0, updatedAt := 0 }
      let ms := r.models.map (fun m =>
        { agentID := newID, modelName := m.name,
          quantization := m.quantization, maxContext := m.maxContext })
      (registerAgent s agent ms now, .ok 201)

/-- handlers.go HandleHeartbeat: verifies the agent exists, decodes the body,
then calls UpdateHeartbeat with the serialized capabilities. -/
def handleHeartbeat (enc : Capabilities → String) (agentID : String)
    (req : Option HeartbeatRequest) (s : Store) (now : Int) :
    Store × HandlerResult :=
  if agentExists s agentID then
    match req with
    | none => (s, .err 400 "invalid_json")
    | some r =>
      match updateHeartbeat s agentID (enc r.capabilities) now with
      | .ok s' => (s', .ok 200)
      | .error _ => (s, .err 500 "internal_error")
  else
    (s, .err 404 "agent_not_found")

/-- GPUInfo as declared identically in the shared package and in
src/agent/gpu.go: id, type, name, available VRAM in MB, compute capability. -/
structure GPUInfo where
  id : String
  type : String
  name : String
  vramMB : Int
  computeCap : String
deriving DecidableEq

/-- Go's built-in string comparison: bytewise lexicographic order, which on
the ASCII compute-capability strings compared here coincides with
characterwise lexicographic order. -/
def goStringLtChars : List Char → List Char → Bool
  | [], [] => false
  | [], _ :: _ => true
  | _ :: _, [] => false
  | a :: as, b :: bs =>
    if a < b then true
    else if b < a then false
    else goStringLtChars as bs

/-- Go's s1 < s2 on strings. -/
def goStringLt (x y : String) : Bool :=
  goStringLtChars x.data y.data

/-- The shared package's GPUInfo.CanServe: cpu always serves; otherwise the
VRAM headroom check (VRAM_MB < modelVRAM_MB + 512 rejects); nvidia devices
are rejected when ComputeCap < "7.0" under Go's lexicographic string order. -/
def sharedCanServe (g : GPUInfo) (modelVRAM_MB : Int) : Bool :=
  if g.type = "cpu" then true
  else if g.vramMB < modelVRAM_MB + 512 then false
  else if g.type = "nvidia" ∧ goStringLt g.computeCap "7.0" then false
  else true

/-- Model of Go's strconv.ParseFloat restricted to plain decimal strings:
an optional sign, digits, optionally a dot and more digits, at least one
digit overall.  The value is returned exactly as a rational; other strings
(the code's error path, where the result variable stays 0) give none.
Exponents, hex floats and Inf/NaN never occur in the compute-capability
strings this repository compares. -/
def goParseFloat (str : String) : Option Rat :=
  let afterSign : Int × List Char :=
    match str.data with
    | '-' :: rest => (-1, rest)
    | '+' :: rest => (1, rest)
    | rest => (1, rest)
  let sign := afterSign.fst
  let body := afterSign.snd
  let intPart := body.takeWhile Char.isDigit
  let afterInt := body.dropWhile Char.isDigit
  let digitsVal : List Char → Nat := fun l =>
    l.foldl (fun acc c => 10 * acc + (c.toNat - 48)) 0
  match afterInt with
  | [] =>
    if intPart.isEmpty then none
    else some (mkRat (sign * (digitsVal intPart : Int)) 1)
  | '.' :: fracPart =>
    if fracPart.all Char.isDigit && !(intPart.isEmpty && fracPart.isEmpty) then
      some (mkRat
        (sign * ((digitsVal intPart : Int) * (10 : Int) ^ fracPart.length +
          (digitsVal fracPart : Int)))
        ((10 : Nat) ^ fracPart.length))
    else none
  | _ => none

/-- The cc value in agent CanServe: ParseFloat's result with the error
ignored, so a parse failure leaves 0. -/
def parseFloatOrZero (str : String) : Rat :=
  (goParseFloat str).getD 0

/-- src/agent/gpu.go GPUInfo.CanServe: cpu always serves, apple always
serves (unified memory), then the VRAM headroom check, then the numeric
compute-capability check via strconv.ParseFloat for nonempty ComputeCap. -/
def agentCanServe (g : GPUInfo) (modelVRAM_MB : Int) : Bool :=
  if g.type = "cpu" then true
  else if g.type = "apple" then true
  else if g.vramMB < modelVRAM_MB + 512 then false
  else if g.type = "nvidia" ∧ g.computeCap ≠ "" ∧ parseFloatOrZero g.computeCap < 7 then
    false
  else true

/-- A compute-capability string of the shape digit, dot, digit, such as
"8.9": the shape actually produced for NVIDIA devices. -/
def mkCC (a b : Nat) : String :=
  String.mk [Char.ofNat (48 + a), '.', Char.ofNat (48 + b)]

/-- Errors of the spec's AdjustLoad operation. -/
inductive LoadError where
  | unknownAgent
  | capacityExceeded
  | negativeLoad
deriving DecidableEq

/-- Modelled from the spec: the repository has no AdjustLoad implementation
(db.go's migrate declares the current_load column, but no Go code mutates
it; increment/decrement statements appear only in design-document
pseudocode).  Spec section 4.1: atomic bounded increment/decrement; an
increment that would exceed maxConcurrent fails with CapacityExceeded and
leaves the load unchanged; current_load never becomes negative (spec
invariant 2), so a decrement below zero also fails without effect.  The
returned store is the store after the operation: unchanged on every error
path. -/
def adjustLoad (s : Store) (agentID : String) (delta : Int) (maxConcurrent : Int) :
    Store × Except LoadError Int :=
  match s.agents.find? (fun r => r.id == agentID) with
  | none => (s, .error .unknownAgent)
  | some r =>
    let newLoad := r.currentLoad + delta
    if newLoad > maxConcurrent then (s, .error .capacityExceeded)
    else if newLoad < 0 then (s, .error .negativeLoad)
    else
      ({ s with agents := s.agents.map (fun a =>
          if a.id = agentID then { a with currentLoad := newLoad } else a) },
       .ok newLoad)

/-- A scheduling candidate as ranked by the spec's Scheduler: the agent's
reliability score, its current load, and its per-model rotating round-robin
index (its distance, in rotation order, from the model's rotation head). -/
structure Candidate where
  id : String
  reliability : Int
  currentLoad : Int
  rrIndex : Nat
deriving DecidableEq

/-- Modelled from the spec: the repository has no Scheduler.Select (the
only Go ordering over agents is GetOnlineAgents' ORDER BY current_load;
the ranked selection exists only in design documents).  Spec section 4.2:
primary key reliability descending, tie-break current load ascending,
final tie-break the rotating per-model index. -/
def rankRel (a b : Candidate) : Prop :=
  b.reliability < a.reliability ∨
    (a.reliability = b.reliability ∧
      (a.currentLoad < b.currentLoad ∨
        (a.currentLoad = b.currentLoad ∧ a.rrIndex ≤ b.rrIndex)))

instance : DecidableRel rankRel := fun a b => by
  unfold rankRel; infer_instance

instance : IsTotal Candidate rankRel :=
  ⟨by intro a b; unfold rankRel; omega⟩

instance : IsTrans Candidate rankRel :=
  ⟨by intro a b c; unfold rankRel; omega⟩

/-- Modelled from the spec: Scheduler.Select's ranking step, sorting the
candidates returned by QueryCapable with the three-key order rankRel. -/
def rankCandidates (l : List Candidate) : List Candidate :=
  l.insertionSort rankRel

/-- Events a Relay delivers into the caller's sink: forwarded chunks and
exactly one terminal event. -/
inductive SinkEvent where
  | chunk (payload : String)
  | terminalSuccess
  | terminalError (code : String)
  | terminalCancelled
deriving DecidableEq

/-- How the agent side of a stream ends once all chunks are received:
clean completion or a mid-stream disconnect. -/
inductive AgentEnd where
  | clean
  | disconnect
deriving DecidableEq

/-- What one Relay.Stream execution did: the sink events it emitted, the
AdjustLoad deltas it issued, and the reliability counter deltas it
recorded. -/
structure StreamOutcome where
  sink : List SinkEvent
  adjustments : List Int
  successDelta : Nat
  failureDelta : Nat
deriving DecidableEq

/-- Modelled from the spec: the forwarding loop of Relay.Stream (spec
section 4.3; the repository has no Relay code, only design pseudocode).
Each step observes the caller's cancellation signal — cancelAfter counts
the chunks forwarded before cancellation is seen — then forwards one
chunk verbatim.  On cancellation: Cancelled terminal marker, release,
reliability untouched.  After the last chunk: success marker and a
reliability success on clean completion, AgentFailed and a reliability
failure on disconnect.  Every branch releases the reservation exactly
once. -/
def relayForward (chunks : List String) (cancelAfter : Option Nat)
    (agentEnd : AgentEnd) : StreamOutcome :=
  match chunks, cancelAfter with
  | _, some 0 =>
    { sink := [.terminalCancelled], adjustments := [-1],
      successDelta := 0, failureDelta := 0 }
  | [], _ =>
    match agentEnd with
    | .clean =>
      { sink := [.terminalSuccess], adjustments := [-1],
        successDelta := 1, failureDelta := 0 }
    | .disconnect =>
      { sink := [.terminalError "AGENT_FAILED"], adjustments := [-1],
        successDelta := 0, failureDelta := 1 }
  | c :: cs, ca =>
    let rest := relayForward cs (ca.map (· - 1)) agentEnd
    { rest with sink := .chunk c :: rest.sink }

/-- Modelled from the spec: Relay.Stream (spec section 4.3).  When the
agent never starts responding the header timeout fires: terminal
AgentTimeout, release, reliability failure, no retry.  Otherwise the
forwarding loop runs. -/
def relayStream (headerTimedOut : Bool) (chunks : List String)
    (cancelAfter : Option Nat) (agentEnd : AgentEnd) : StreamOutcome :=
  if headerTimedOut then
    { sink := [.terminalError "AGENT_TIMEOUT"], adjustments := [-1],
      successDelta := 0, failureDelta := 1 }
  else
    relayForward chunks cancelAfter agentEnd

/-- Modelled from the spec: the AdjustLoad deltas attributable to one Work
Request — the Scheduler's single +1 reservation (spec section 4.2 step 3)
followed by whatever the Relay issues on its exit path. -/
def workRequestAdjustments (headerTimedOut : Bool) (chunks : List String)
    (cancelAfter : Option Nat) (agentEnd : AgentEnd) : List Int :=
  1 :: (relayStream headerTimedOut chunks cancelAfter agentEnd).adjustments

/-- The Relay's forwarding loop issues exactly the single release, whatever
the chunk sequence, cancellation point and agent-side ending. -/
theorem relayForward_adjustments (chunks : List String) (cancelAfter : Option Nat)
    (agentEnd : AgentEnd) :
    (relayForward chunks cancelAfter agentEnd).adjustments = [-1] := by
  induction chunks generalizing cancelAfter with
  | nil =>
    match cancelAfter, agentEnd with
    | none, .clean => rfl
    | none, .disconnect => rfl
    | some 0, _ => rfl
    | some (n + 1), .clean => rfl
    | some (n + 1), .disconnect => rfl
  | cons c cs ih =>
    match cancelAfter with
    | none => simpa [relayForward] using ih none
    | some 0 => rfl
    | some (n + 1) => simpa [relayForward] using ih (some n)

/-- Claim C1: for every Work Request handled by the Relay's Stream
operation, the reservation release AdjustLoad(-1) executes exactly once on
every exit path — clean completion, agent timeout, agent failure
mid-stream, and caller cancellation — matching the single AdjustLoad(+1)
performed by the Scheduler for that request. -/
theorem relay_releases_exactly_once (headerTimedOut : Bool) (chunks : List String)
    (cancelAfter : Option Nat) (agentEnd : AgentEnd) :
    (relayStream headerTimedOut chunks cancelAfter agentEnd).adjustments = [-1] ∧
    (workRequestAdjustments headerTimedOut chunks cancelAfter agentEnd).count 1 = 1 ∧
    (workRequestAdjustments headerTimedOut chunks cancelAfter agentEnd).count (-1) = 1 := by
  have hrel : (relayStream headerTimedOut chunks cancelAfter agentEnd).adjustments = [-1] := by
    unfold relayStream
    split
    · rfl
    · exact relayForward_adjustments chunks cancelAfter agentEnd
  refine ⟨hrel, ?_, ?_⟩ <;>
    simp [workRequestAdjustments, hrel, List.count_cons]

/-- Claim C3: the Scheduler's ranking returns the candidates in the
three-key order — reliability descending, then current load ascending,
then the per-model rotating round-robin index — and returns exactly the
candidates it was given. -/
theorem rankCandidates_three_key_order (l : List Candidate) :
    (rankCandidates l).Perm l ∧ (rankCandidates l).Pairwise rankRel :=
  ⟨List.perm_insertionSort rankRel l, List.sorted_insertionSort rankRel l⟩

/-- All facts needed about digit-dot-digit compute-capability strings:
Go's lexicographic comparison with "7.0", the parsed numeric comparison
with 7.0, and nonemptiness all reduce to the leading digit. -/
theorem mkCC_facts : ∀ a < 10, ∀ b < 10,
    (goStringLt (mkCC a b) "7.0" = decide (a < 7)) ∧
    (decide (parseFloatOrZero (mkCC a b) < 7) = decide (a < 7)) ∧
    mkCC a b ≠ "" := by decide

/-- The NVIDIA card whose compute capability "10.0" compares below "7.0"
lexicographically but parses above 7.0 numerically. -/
def gpuCC10 : GPUInfo :=
  { id := "cuda:0", type := "nvidia", name := "RTX 6000",
    vramMB := 24576, computeCap := "10.0" }

/-- An Apple-silicon GPU as produced by detection: unified memory reported
as VRAM_MB = 0. -/
def gpuAppleM2 : GPUInfo :=
  { id := "metal:0", type := "apple", name := "M2 Max",
    vramMB := 0, computeCap := "apple3" }

/-- Claim C9 counterexample: the two CanServe implementations disagree at
concrete inputs — the shared version rejects an NVIDIA card with compute
capability "10.0" (lexicographically below "7.0") and rejects apple GPUs
through the VRAM headroom check, while the agent version accepts both. -/
theorem canServe_implementations_disagree :
    sharedCanServe gpuCC10 4096 = false ∧ agentCanServe gpuCC10 4096 = true ∧
    sharedCanServe gpuAppleM2 4096 = false ∧ agentCanServe gpuAppleM2 4096 = true ∧
    sharedCanServe gpuCC10 4096 ≠ agentCanServe gpuCC10 4096 := by decide

/-- Claim C9 (amended): the two CanServe implementations agree for
cpu-type GPUs and for nvidia-type GPUs whose compute-capability string has
the digit-dot-digit shape; they disagree for apple-type GPUs and for
strings such as "10.0" or "" where lexicographic and numeric comparison
differ. -/
theorem canServe_agree_on_cpu_and_plain_cc (g : GPUInfo) (m : Int)
    (h : g.type = "cpu" ∨
      (g.type = "nvidia" ∧ ∃ a b, a < 10 ∧ b < 10 ∧ g.computeCap = mkCC a b)) :
    sharedCanServe g m = agentCanServe g m := by
  rcases h with hcpu | ⟨hnv, a, b, ha, hb, hcc⟩
  · simp [sharedCanServe, agentCanServe, hcpu]
  · obtain ⟨h1, h2, h3⟩ := mkCC_facts a ha b hb
    have h2' : parseFloatOrZero (mkCC a b) < 7 ↔ a < 7 := by
      constructor <;> intro hx
      · have := h2 ▸ decide_eq_true hx
        exact of_decide_eq_true this
      · have := h2.symm ▸ decide_eq_true hx
        exact of_decide_eq_true this
    by_cases hv : g.vramMB < m + 512 <;>
      by_cases h7 : a < 7 <;>
        simp [sharedCanServe, agentCanServe, hnv, hcc, hv, h1, h2', h3, h7]

/-- Witness for the amended C9 claim at an NVIDIA GPU with compute
capability "8.9". -/
theorem canServe_agree_witness :
    sharedCanServe
        { id := "cuda:0", type := "nvidia", name := "RTX 4090",
          vramMB := 24576, computeCap := "8.9" } 4096 =
      agentCanServe
        { id := "cuda:0", type := "nvidia", name := "RTX 4090",
          vramMB := 24576, computeCap := "8.9" } 4096 :=
  canServe_agree_on_cpu_and_plain_cc _ 4096
    (Or.inr ⟨rfl, 8, 9, by decide, by decide, by decide⟩)

/-- Claim C4: Register(identity, capabilitySet) is an idempotent upsert —
re-registering an already-registered identity replaces the stored
capability set in full (the capabilities column and the agent_models
rows), resets the status to online with a fresh heartbeat timestamp, and
creates no second agent record. -/
theorem registerAgent_idempotent_upsert (s : Store) (a : Agent)
    (ms : List AgentModel) (now : Int)
    (hmem : ∃ r ∈ s.agents, r.id = a.id)
    (hms : ∀ m ∈ ms, m.agentID = a.id) :
    (registerAgent s a ms now).agents.length = s.agents.length ∧
    (∀ r ∈ (registerAgent s a ms now).agents, r.id = a.id →
      r.status = "online" ∧ r.lastHeartbeat = now ∧
      r.capabilities = a.capabilities ∧ r.updatedAt = now) ∧
    (registerAgent s a ms now).models.filter (fun m => m.agentID == a.id) = ms := by
  have hany : s.agents.any (fun r => r.id == a.id) = true := by
    rcases hmem with ⟨r, hr, hrid⟩
    exact List.any_eq_true.mpr ⟨r, hr, by simp [hrid]⟩
  have hreg : registerAgent s a ms now =
      { agents := s.agents.map (fun r =>
          if r.id = a.id then
            { r with name := a.name, status := "online", lastHeartbeat := now,
                     capabilities := a.capabilities, updatedAt := now }
          else r),
        models := s.models.filter (fun m => !(m.agentID == a.id)) ++ ms } := by
    simp [registerAgent, hany]
  rw [hreg]
  refine ⟨List.length_map _ _, ?_, ?_⟩
  · intro r hr hid
    obtain ⟨r0, hr0, hfr0⟩ := List.mem_map.mp hr
    by_cases h0 : r0.id = a.id
    · rw [if_pos h0] at hfr0
      rw [← hfr0]
      exact ⟨rfl, rfl, rfl, rfl⟩
    · rw [if_neg h0] at hfr0
      rw [← hfr0] at hid
      exact absurd hid h0
  · rw [List.filter_append]
    have h1 : (s.models.filter (fun m => !(m.agentID == a.id))).filter
        (fun m => m.agentID == a.id) = [] := by
      rw [List.filter_eq_nil_iff]
      intro m hm
      have := List.of_mem_filter hm
      simp at this ⊢
      exact this
    have h2 : ms.filter (fun m => m.agentID == a.id) = ms := by
      rw [List.filter_eq_self]
      intro m hm
      simp [hms m hm]
    rw [h1, h2, List.nil_append]

/-- A store holding one already-registered agent, used to witness the
upsert claim. -/
def w4Store : Store :=
  { agents := [{ id := "a4", apiKeyHash := "oldhash", name := "old",
                 status := "offline", lastHeartbeat := 10, capabilities := "oldcaps",
                 currentLoad := 2, createdAt := 1, updatedAt := 10 }],
    models := [{ agentID := "a4", modelName := "m-old",
                 quantization := "q4", maxContext := 4096 }] }

/-- The re-registration payload used by the C4 witness. -/
def w4Agent : Agent :=
  { id := "a4", apiKeyHash := "newhash", name := "new", status := "online",
    lastHeartbeat := 0, capabilities := "newcaps", currentLoad := 0,
    createdAt := 0, updatedAt := 0 }

/-- The replacement capability rows used by the C4 witness. -/
def w4Models : List AgentModel :=
  [{ agentID := "a4", modelName := "m-new", quantization := "q5", maxContext := 8192 }]

/-- Witness for the C4 upsert claim at a concrete re-registration. -/
theorem registerAgent_idempotent_upsert_witness :
    (registerAgent w4Store w4Agent w4Models 100).agents.length =
        w4Store.agents.length ∧
    (∀ r ∈ (registerAgent w4Store w4Agent w4Models 100).agents, r.id = w4Agent.id →
      r.status = "online" ∧ r.lastHeartbeat = 100 ∧
      r.capabilities = w4Agent.capabilities ∧ r.updatedAt = 100) ∧
    (registerAgent w4Store w4Agent w4Models 100).models.filter
        (fun m => m.agentID == w4Agent.id) = w4Models :=
  registerAgent_idempotent_upsert w4Store w4Agent w4Models 100
    ⟨w4Store.agents.head (by decide), by decide, by decide⟩ (by decide)

/-- Claim C6: any successful heartbeat for a registered agent sets the
agent's status to online immediately — whatever its previous status, with
no probation period and no intermediate state — and stamps the fresh
heartbeat time. -/
theorem heartbeat_restores_online (s : Store) (agentID caps : String) (now : Int)
    (hmem : ∃ r ∈ s.agents, r.id = agentID) :
    ∃ s', updateHeartbeat s agentID caps now = .ok s' ∧
      ∀ r ∈ s'.agents, r.id = agentID →
        r.status = "online" ∧ r.lastHeartbeat = now := by
  have hany : s.agents.any (fun r => r.id == agentID) = true := by
    rcases hmem with ⟨r, hr, hrid⟩
    exact List.any_eq_true.mpr ⟨r, hr, by simp [hrid]⟩
  have hok : updateHeartbeat s agentID caps now =
      .ok { s with agents := s.agents.map (fun r =>
        if r.id = agentID then
          { r with lastHeartbeat := now, capabilities := caps,
                   status := "online", updatedAt := now }
        else r) } := by
    simp [updateHeartbeat, hany]
  refine ⟨_, hok, ?_⟩
  intro r hr hid
  obtain ⟨r0, hr0, hfr0⟩ := List.mem_map.mp hr
  by_cases h0 : r0.id = agentID
  · rw [if_pos h0] at hfr0
    rw [← hfr0]
    exact ⟨rfl, rfl⟩
  · rw [if_neg h0] at hfr0
    rw [← hfr0] at hid
    exact absurd hid h0

/-- A store holding one agent the sweeper has already demoted to offline,
used to witness the heartbeat-restores-online claim. -/
def w6Store : Store :=
  { agents := [{ id := "a6", apiKeyHash := "h", name := "n", status := "offline",
                 lastHeartbeat := 5, capabilities := "caps", currentLoad := 0,
                 createdAt := 0, updatedAt := 7 }],
    models := [] }

/-- Witness for the C6 claim: the offline agent of w6Store is online again
after one successful heartbeat. -/
theorem heartbeat_restores_online_witness :
    ∃ s', updateHeartbeat w6Store "a6" "caps2" 100 = .ok s' ∧
      ∀ r ∈ s'.agents, r.id = "a6" →
        r.status = "online" ∧ r.lastHeartbeat = 100 :=
  heartbeat_restores_online w6Store "a6" "caps2" 100
    ⟨w6Store.agents.head (by decide), by decide, by decide⟩

/-- Claim C7: a heartbeat for an identity that was never registered fails
with the unknown-agent error (the handler's agent_not_found, HTTP 404) and
leaves the store exactly unchanged — no state is silently created. -/
theorem heartbeat_unknown_agent (enc : Capabilities → String) (agentID : String)
    (req : Option HeartbeatRequest) (s : Store) (now : Int)
    (hnone : ∀ r ∈ s.agents, r.id ≠ agentID) :
    handleHeartbeat enc agentID req s now = (s, .err 404 "agent_not_found") := by
  have hex : agentExists s agentID = false := by
    rw [agentExists, List.any_eq_false]
    intro r hr
    simp [hnone r hr]
  simp [handleHeartbeat, hex]

/-- Witness for the C7 claim: heartbeating an unknown identity against a
store that only knows agent a6. -/
theorem heartbeat_unknown_agent_witness :
    handleHeartbeat (fun _ => "caps") "ghost" none w6Store 50 =
      (w6Store, .err 404 "agent_not_found") :=
  heartbeat_unknown_agent (fun _ => "caps") "ghost" none w6Store 50 (by decide)

/-- Claim C8: registration fails when the capability set is empty or
malformed — a body that does not decode, or one whose model list is empty
— and in that case no agent record is created: the store is returned
unchanged with an error result (the handler's invalid_json /
missing_models realizations of InvalidCapability; an empty API key is
likewise rejected before any write). -/
theorem register_rejects_invalid_capability (enc : Capabilities → String)
    (hash : String → String) (newID : String) (s : Store) (now : Int)
    (req : Option RegisterRequest)
    (hbad : req = none ∨ ∃ r, req = some r ∧ r.models = []) :
    (handleRegister enc hash req newID s now).fst = s ∧
    ∃ st c, (handleRegister enc hash req newID s now).snd = .err st c := by
  rcases hbad with rfl | ⟨r, rfl, hr⟩
  · exact ⟨rfl, 400, "invalid_json", rfl⟩
  · by_cases hk : r.apiKey = ""
    · refine ⟨?_, 400, "missing_api_key", ?_⟩ <;> simp [handleRegister, hk]
    · refine ⟨?_, 400, "missing_models", ?_⟩ <;> simp [handleRegister, hk, hr]

/-- The modelless register request used by the C8 witness. -/
def w8Request : RegisterRequest :=
  { name := "n", apiKey := "k",
    capabilities := { gpuVendor := "v", gpuModel := "g", vramMB := 8, platform := "p" },
    models := [] }

/-- Witness for the C8 claim: a register request with an empty model list
against the w6Store leaves it unchanged and errors. -/
theorem register_rejects_invalid_capability_witness :
    (handleRegister (fun _ => "caps") (fun k => k) (some w8Request)
        "new-id" w6Store 50).fst = w6Store ∧
    ∃ st c, (handleRegister (fun _ => "caps") (fun k => k) (some w8Request)
        "new-id" w6Store 50).snd = .err st c :=
  register_rejects_invalid_capability (fun _ => "caps") (fun k => k) "new-id"
    w6Store 50 (some w8Request) (Or.inr ⟨w8Request, rfl, rfl⟩)

/-- Claim C10: a successful UpdateHeartbeat touches only the designated
agent's last_heartbeat, capabilities, status and updated_at: its id,
api_key_hash, name, current_load and created_at are unchanged, every other
agent's record is unchanged (position by position), and the agent_models
table is unchanged. -/
theorem heartbeat_frame (s : Store) (agentID caps : String) (now : Int) (s' : Store)
    (h : updateHeartbeat s agentID caps now = .ok s') :
    s'.models = s.models ∧
    s'.agents.length = s.agents.length ∧
    ∀ i (hi : i < s.agents.length) (hi' : i < s'.agents.length),
      ((s.agents.get ⟨i, hi⟩).id ≠ agentID →
        s'.agents.get ⟨i, hi'⟩ = s.agents.get ⟨i, hi⟩) ∧
      (s'.agents.get ⟨i, hi'⟩).id = (s.agents.get ⟨i, hi⟩).id ∧
      (s'.agents.get ⟨i, hi'⟩).apiKeyHash = (s.agents.get ⟨i, hi⟩).apiKeyHash ∧
      (s'.agents.get ⟨i, hi'⟩).name = (s.agents.get ⟨i, hi⟩).name ∧
      (s'.agents.get ⟨i, hi'⟩).currentLoad = (s.agents.get ⟨i, hi⟩).currentLoad ∧
      (s'.agents.get ⟨i, hi'⟩).createdAt = (s.agents.get ⟨i, hi⟩).createdAt := by
  unfold updateHeartbeat at h
  split at h
  case isFalse => exact absurd h (by simp)
  case isTrue =>
    have hs' : s' = { s with agents := s.agents.map (fun r =>
        if r.id = agentID then
          { r with lastHeartbeat := now, capabilities := caps,
                   status := "online", updatedAt := now }
        else r) } := by
      cases h
      rfl
    subst hs'
    refine ⟨rfl, List.length_map _ _, ?_⟩
    intro i hi hi'
    have hget : (Store.agents { s with agents := s.agents.map (fun r =>
        if r.id = agentID then
          { r with lastHeartbeat := now, capabilities := caps,
                   status := "online", updatedAt := now }
        else r) }).get ⟨i, hi'⟩ =
        (fun r => if r.id = agentID then
          { r with lastHeartbeat := now, capabilities := caps,
                   status := "online", updatedAt := now }
        else r) (s.agents.get ⟨i, hi⟩) := by
      simp
    rw [hget]
    dsimp only
    by_cases hid : (s.agents.get ⟨i, hi⟩).id = agentID
    · rw [if_pos hid]
      exact ⟨fun hne => absurd hid hne, rfl, rfl, rfl, rfl, rfl⟩
    · rw [if_neg hid]
      exact ⟨fun _ => rfl, rfl, rfl, rfl, rfl, rfl⟩

/-- Witness for the C10 frame claim: a concrete two-agent store where the
heartbeat of a6 leaves the other row and all untouched fields intact. -/
def w10Store : Store :=
  { agents :=
      [{ id := "a6", apiKeyHash := "h6", name := "n6", status := "offline",
         lastHeartbeat := 5, capabilities := "c6", currentLoad := 1,
         createdAt := 2, updatedAt := 7 },
       { id := "b7", apiKeyHash := "h7", name := "n7", status := "online",
         lastHeartbeat := 6, capabilities := "c7", currentLoad := 0,
         createdAt := 3, updatedAt := 8 }],
    models := [{ agentID := "a6", modelName := "m", quantization := "q",
                 maxContext := 2048 }] }

/-- Witness for the C10 frame claim, instantiating the theorem at
w10Store. -/
theorem heartbeat_frame_witness :
    ((updateHeartbeat w10Store "a6" "c6b" 100).toOption.getD w10Store).models =
        w10Store.models ∧
    ((updateHeartbeat w10Store "a6" "c6b" 100).toOption.getD w10Store).agents.length =
        w10Store.agents.length ∧
    ∀ i (hi : i < w10Store.agents.length)
      (hi' : i < ((updateHeartbeat w10Store "a6" "c6b" 100).toOption.getD
        w10Store).agents.length),
      ((w10Store.agents.get ⟨i, hi⟩).id ≠ "a6" →
        ((updateHeartbeat w10Store "a6" "c6b" 100).toOption.getD
          w10Store).agents.get ⟨i, hi'⟩ = w10Store.agents.get ⟨i, hi⟩) ∧
      (((updateHeartbeat w10Store "a6" "c6b" 100).toOption.getD
          w10Store).agents.get ⟨i, hi'⟩).id = (w10Store.agents.get ⟨i, hi⟩).id ∧
      (((updateHeartbeat w10Store "a6" "c6b" 100).toOption.getD
          w10Store).agents.get ⟨i, hi'⟩).apiKeyHash =
        (w10Store.agents.get ⟨i, hi⟩).apiKeyHash ∧
      (((updateHeartbeat w10Store "a6" "c6b" 100).toOption.getD
          w10Store).agents.get ⟨i, hi'⟩).name = (w10Store.agents.get ⟨i, hi⟩).name ∧
      (((updateHeartbeat w10Store "a6" "c6b" 100).toOption.getD
          w10Store).agents.get ⟨i, hi'⟩).currentLoad =
        (w10Store.agents.get ⟨i, hi⟩).currentLoad ∧
      (((updateHeartbeat w10Store "a6" "c6b" 100).toOption.getD
          w10Store).agents.get ⟨i, hi'⟩).createdAt =
        (w10Store.agents.get ⟨i, hi⟩).createdAt :=
  heartbeat_frame w10Store "a6" "c6b" 100 _ rfl

/-- A single online agent whose last heartbeat was at time 0, used for the
sweep boundary analysis. -/
def c5Store : Store :=
  { agents := [{ id := "agent-1", apiKeyHash := "hash", name := "node",
                 status := "online", lastHeartbeat := 0, capabilities := "caps",
                 currentLoad := 0, createdAt := 0, updatedAt := 0 }],
    models := [] }

/-- Claim C5 counterexample: at now = 90 with staleTimeout = 90 the
agent's silence is exactly the timeout (90 ≥ 90), so the claim demands a
demotion to offline, yet the sweep leaves the agent online: the SQL
demotes only agents with last_heartbeat strictly below now − timeout. -/
theorem sweep_boundary_counterexample :
    ¬ (∀ r ∈ (markStaleAgentsOffline c5Store 90 90).fst.agents,
        (90 : Int) - r.lastHeartbeat ≥ 90 → r.status = "offline") := by decide

/-- Claim C5 (amended): each sweep tick demotes to offline every currently
online agent whose silence strictly exceeds the stale timeout
(now − last_heartbeat > staleTimeout), stamping updated_at, and leaves
every agent whose silence is at most the timeout — and every agent not
currently online — exactly unchanged. -/
theorem sweep_demotes_strictly_stale (s : Store) (timeout now : Int) :
    (markStaleAgentsOffline s timeout now).fst.agents.length = s.agents.length ∧
    ∀ i (hi : i < s.agents.length)
      (hi' : i < (markStaleAgentsOffline s timeout now).fst.agents.length),
      ((s.agents.get ⟨i, hi⟩).status = "online" →
        now - (s.agents.get ⟨i, hi⟩).lastHeartbeat > timeout →
        ((markStaleAgentsOffline s timeout now).fst.agents.get ⟨i, hi'⟩).status =
          "offline") ∧
      (now - (s.agents.get ⟨i, hi⟩).lastHeartbeat ≤ timeout →
        (markStaleAgentsOffline s timeout now).fst.agents.get ⟨i, hi'⟩ =
          s.agents.get ⟨i, hi⟩) ∧
      ((s.agents.get ⟨i, hi⟩).status ≠ "online" →
        (markStaleAgentsOffline s timeout now).fst.agents.get ⟨i, hi'⟩ =
          s.agents.get ⟨i, hi⟩) := by
  have hfst : (markStaleAgentsOffline s timeout now).fst =
      { s with agents := s.agents.map (fun r =>
          if r.status == "online" && decide (r.lastHeartbeat < now - timeout) then
            { r with status := "offline", updatedAt := now }
          else r) } := rfl
  rw [hfst]
  refine ⟨List.length_map _ _, ?_⟩
  intro i hi hi'
  have hget : (Store.agents { s with agents := s.agents.map (fun r =>
      if r.status == "online" && decide (r.lastHeartbeat < now - timeout) then
        { r with status := "offline", updatedAt := now }
      else r) }).get ⟨i, hi'⟩ =
      (fun r => if r.status == "online" && decide (r.lastHeartbeat < now - timeout) then
        { r with status := "offline", updatedAt := now }
      else r) (s.agents.get ⟨i, hi⟩) := by
    simp
  rw [hget]
  dsimp only
  refine ⟨?_, ?_, ?_⟩
  · intro hon hstale
    have hcond : ((s.agents.get ⟨i, hi⟩).status == "online" &&
        decide ((s.agents.get ⟨i, hi⟩).lastHeartbeat < now - timeout)) = true := by
      rw [hon, decide_eq_true (by omega : (s.agents.get ⟨i, hi⟩).lastHeartbeat < now - timeout)]
      rfl
    rw [if_pos hcond]
  · intro hfresh
    have hdec : decide ((s.agents.get ⟨i, hi⟩).lastHeartbeat < now - timeout) = false :=
      decide_eq_false (by omega)
    have hcond : ((s.agents.get ⟨i, hi⟩).status == "online" &&
        decide ((s.agents.get ⟨i, hi⟩).lastHeartbeat < now - timeout)) = false := by
      rw [hdec, Bool.and_false]
    rw [if_neg (by rw [hcond]; exact Bool.false_ne_true)]
  · intro hoff
    have hbeq : ((s.agents.get ⟨i, hi⟩).status == "online") = false :=
      beq_eq_false_iff_ne.mpr hoff
    have hcond : ((s.agents.get ⟨i, hi⟩).status == "online" &&
        decide ((s.agents.get ⟨i, hi⟩).lastHeartbeat < now - timeout)) = false := by
      rw [hbeq, Bool.false_and]
    rw [if_neg (by rw [hcond]; exact Bool.false_ne_true)]

/-- Witness for the amended C5 claim: at now = 200 the c5Store agent is
91 seconds past a 90-second timeout and the tick demotes it. -/
theorem sweep_demotes_strictly_stale_witness :
    ((markStaleAgentsOffline c5Store 90 200).fst.agents.get ⟨0, by decide⟩).status =
      "offline" :=
  ((sweep_demotes_strictly_stale c5Store 90 200).2 0 (by decide) (by decide)).1
    (by decide) (by decide)

/-- Claim C2 (modelled from the spec, see adjustLoad): AdjustLoad
preserves 0 ≤ current_load ≤ maxConcurrent for every agent, and an
increment that would push a found agent past maxConcurrent fails with
CapacityExceeded leaving the store — hence the load — unchanged. -/
theorem adjustLoad_bounded (s : Store) (agentID : String)
    (delta maxConcurrent : Int)
    (hinv : ∀ r ∈ s.agents, 0 ≤ r.currentLoad ∧ r.currentLoad ≤ maxConcurrent) :
    (∀ r ∈ (adjustLoad s agentID delta maxConcurrent).fst.agents,
      0 ≤ r.currentLoad ∧ r.currentLoad ≤ maxConcurrent) ∧
    (∀ r, s.agents.find? (fun x => x.id == agentID) = some r →
      r.currentLoad + delta > maxConcurrent →
      adjustLoad s agentID delta maxConcurrent = (s, .error .capacityExceeded)) := by
  constructor
  · intro r hr
    unfold adjustLoad at hr
    rcases hfind : s.agents.find? (fun x => x.id == agentID) with _ | r0
    · rw [hfind] at hr
      exact hinv r hr
    · rw [hfind] at hr
      dsimp only at hr
      by_cases hover : r0.currentLoad + delta > maxConcurrent
      · rw [if_pos hover] at hr
        exact hinv r hr
      · rw [if_neg hover] at hr
        by_cases hneg : r0.currentLoad + delta < 0
        · rw [if_pos hneg] at hr
          exact hinv r hr
        · rw [if_neg hneg] at hr
          obtain ⟨r1, hr1, hfr1⟩ := List.mem_map.mp hr
          by_cases h1 : r1.id = agentID
          · rw [if_pos h1] at hfr1
            rw [← hfr1]
            refine ⟨?_, ?_⟩
            · show 0 ≤ r0.currentLoad + delta
              omega
            · show r0.currentLoad + delta ≤ maxConcurrent
              omega
          · rw [if_neg h1] at hfr1
            rw [← hfr1]
            exact hinv r1 hr1
  · intro r hfind hover
    unfold adjustLoad
    rw [hfind]
    dsimp only
    rw [if_pos hover]

/-- Store with one agent already at its capacity bound, used to witness
the bounded-AdjustLoad claim. -/
def w2Store : Store :=
  { agents := [{ id := "a2", apiKeyHash := "h", name := "n", status := "online",
                 lastHeartbeat := 0, capabilities := "caps", currentLoad := 1,
                 createdAt := 0, updatedAt := 0 }],
    models := [] }

/-- Witness for the C2 claim at maxConcurrent = 1 with an agent at load 1:
the invariant is preserved and the increment fails with CapacityExceeded. -/
theorem adjustLoad_bounded_witness :
    (∀ r ∈ (adjustLoad w2Store "a2" 1 1).fst.agents,
      0 ≤ r.currentLoad ∧ r.currentLoad ≤ 1) ∧
    (∀ r, w2Store.agents.find? (fun x => x.id == "a2") = some r →
      r.currentLoad + 1 > 1 →
      adjustLoad w2Store "a2" 1 1 = (w2Store, .error .capacityExceeded)) :=
  adjustLoad_bounded w2Store "a2" 1 1 (by decide)

end Metalyard
